import Mathlib

/-!
Shallow embedding of the architecture-aware pod-placement pipeline of the
multiarch tuning operator.

The admission webhook (`Handle` in
`controllers/podplacement/scheduling_gate_mutating_webhook.go`) is embedded
directly from its Go source. The `Pod` helper methods
(`imagesNamesSet`, `intersectImagesArchitecture`, `getArchitecturePredicate`,
`setRequiredArchNodeAffinity`, `SetNodeAffinityArchRequirement`,
`ensureLabel`, `ensureArchitectureLabels`, `ensureSchedulingGate`,
`RemoveSchedulingGate`, `shouldIgnorePod`, `hasControlPlaneNodeSelector`)
live in `pod.go`, which is not part of the sources at hand; they are modelled
from the specification, with every behavioural detail pinned by the repository's
unit tests (`TestPod_*` in the podplacement test file) followed faithfully.

Kubernetes `nil` slices/maps are modelled as `Option` values (`none` = absent),
since the tests distinguish a nil `Values`/`Labels`/`SchedulingGates` from an
empty one.
-/

namespace MTO

/-- Well-known constant names from `pkg/utils` (exact literals are opaque to the
claims; only their distinctness and structure matter). -/
def SchedulingGateName : String := "multiarch.openshift.io/scheduling-gate"

/-- The node architecture label key (`kubernetes.io/arch`). -/
def ArchLabel : String := "kubernetes.io/arch"

/-- Label key marking pods with no architecture common to all their images. -/
def NoSupportedArchLabel : String := "multiarch.openshift.io/no-supported-arch"

/-- Label key marking pods supporting exactly one architecture. -/
def SingleArchLabel : String := "multiarch.openshift.io/single-arch"

/-- Label key marking pods supporting several architectures. -/
def MultiArchLabel : String := "multiarch.openshift.io/multi-arch"

/-- Bookkeeping label key for the node-affinity processing state. -/
def NodeAffinityLabel : String := "multiarch.openshift.io/node-affinity"

/-- Value of `NodeAffinityLabel` meaning the affinity is not yet determined. -/
def NodeAffinityLabelValueNotSet : String := "not-set"

/-- Bookkeeping label key set when the scheduling gate is added. -/
def SchedulingGateLabel : String := "multiarch.openshift.io/scheduling-gate-label"

/-- Value of `SchedulingGateLabel` for gated pods. -/
def SchedulingGateLabelValueGated : String := "gated"

/-- Per-architecture presence label key. -/
def ArchLabelValue (arch : String) : String := "multiarch.openshift.io/arch." ++ arch

/-- Control-plane node selector label. -/
def ControlPlaneNodeSelectorLabel : String := "node-role.kubernetes.io/control-plane"

/-- Master node selector label. -/
def MasterNodeSelectorLabel : String := "node-role.kubernetes.io/master"

/-- Architecture identifier constants. -/
def ArchitectureAmd64 : String := "amd64"

/-- Architecture identifier `arm64`. -/
def ArchitectureArm64 : String := "arm64"

/-- Architecture identifier `s390x`. -/
def ArchitectureS390x : String := "s390x"

/-- Architecture identifier `ppc64le`. -/
def ArchitecturePpc64le : String := "ppc64le"

/-- `v1.NodeSelectorOperator`: the operators used by the pipeline. -/
inductive NodeSelectorOperator where
  | opIn
  | opNotIn
  | opExists
  | opDoesNotExist
deriving DecidableEq, Repr

/-- `v1.NodeSelectorRequirement`. `values` is `none` when the Go slice is nil
(the zero value), `some` otherwise; the tests distinguish the two. -/
structure NodeSelectorRequirement where
  key : String
  operator : NodeSelectorOperator
  values : Option (List String)
deriving DecidableEq, Repr

/-- `v1.NodeSelectorTerm` (matchFields are never used by the pipeline). -/
structure NodeSelectorTerm where
  matchExpressions : List NodeSelectorRequirement
deriving DecidableEq, Repr

/-- `v1.NodeSelector`. -/
structure NodeSelector where
  nodeSelectorTerms : List NodeSelectorTerm
deriving DecidableEq, Repr

/-- `v1.PreferredSchedulingTerm`. -/
structure PreferredSchedulingTerm where
  weight : Int
  preference : NodeSelectorTerm
deriving DecidableEq, Repr

/-- `v1.PodAffinityTerm` (only the topology key is relevant here). -/
structure PodAffinityTerm where
  topologyKey : String
deriving DecidableEq, Repr

/-- `v1.NodeAffinity`. -/
structure NodeAffinity where
  requiredDuringSchedulingIgnoredDuringExecution : Option NodeSelector
  preferredDuringSchedulingIgnoredDuringExecution : List PreferredSchedulingTerm
deriving DecidableEq, Repr

/-- `v1.Affinity`. -/
structure Affinity where
  nodeAffinity : Option NodeAffinity
  podAffinity : Option (List PodAffinityTerm)
  podAntiAffinity : Option (List PodAffinityTerm)
deriving DecidableEq, Repr

/-- `v1.PodSchedulingGate`. -/
structure PodSchedulingGate where
  name : String
deriving DecidableEq, Repr

/-- `v1.Container`: the fields the pipeline consumes. -/
structure Container where
  image : String
  imagePullPolicy : String
deriving DecidableEq, Repr

/-- `metav1.OwnerReference`: the fields the pipeline consumes. -/
structure OwnerReference where
  kind : String
  controller : Option Bool
deriving DecidableEq, Repr

/-- `v1.PodSpec`: the fields the pipeline consumes. `schedulingGates` and
`nodeSelector` are `none` when nil in Go. -/
structure PodSpec where
  containers : List Container
  initContainers : List Container
  schedulingGates : Option (List PodSchedulingGate)
  nodeName : String
  nodeSelector : Option (List (String × String))
  affinity : Option Affinity
  imagePullSecrets : List String
deriving DecidableEq, Repr

/-- Pod metadata: the fields the pipeline consumes. `labels` is `none` when the
Go map is nil. -/
structure PodMeta where
  namespaceName : String
  name : String
  labels : Option (List (String × String))
  ownerReferences : List OwnerReference
deriving DecidableEq, Repr

/-- `v1.Pod` restricted to the consumed fields. -/
structure Pod where
  metadata : PodMeta
  spec : PodSpec
deriving DecidableEq, Repr

/-- Upsert on a label map modelled as an association list: overwrite in place
when the key exists, append otherwise (Go map assignment semantics, with a
deterministic order for the embedding). -/
def upsertLabel (l : List (String × String)) (k v : String) : List (String × String) :=
  if l.any (fun p => p.1 == k) then
    l.map (fun p => if p.1 == k then (k, v) else p)
  else
    l ++ [(k, v)]

/-- Modelled from the spec: `ensureLabel(pod, key, value)` of the missing
`pod.go` is a generic upsert on the label map, creating the map if absent and
overwriting an existing value for that key (pinned by `TestEnsureLabel`). -/
def ensureLabel (pod : Pod) (k v : String) : Pod :=
  { pod with metadata := { pod.metadata with
      labels := some (upsertLabel (pod.metadata.labels.getD []) k v) } }

/-- Keys of a pod's label map. -/
def labelKeys (pod : Pod) : List String :=
  (pod.metadata.labels.getD []).map Prod.fst

/-- Value of a label on a pod (`none` when the key is absent or the map nil). -/
def getLabel (pod : Pod) (k : String) : Option String :=
  ((pod.metadata.labels.getD []).find? (fun p => p.1 == k)).map Prod.snd

/-- Modelled from the spec: `ensureArchitectureLabels(pod, expression)` of the
missing `pod.go`. Based on `expression.values`: a nil values slice sets nothing
at all; zero values set the "no-supported-architecture" label; one value the
"single-architecture" label; several the "multi-architecture" label; plus one
per-architecture label per value (pinned by `TestEnsureArchitectureLabels`). -/
def ensureArchitectureLabels (pod : Pod) (req : NodeSelectorRequirement) : Pod :=
  match req.values with
  | none => pod
  | some vs =>
    let pod :=
      match vs with
      | [] => ensureLabel pod NoSupportedArchLabel ""
      | [_] => ensureLabel pod SingleArchLabel ""
      | _ :: _ :: _ => ensureLabel pod MultiArchLabel ""
    vs.foldl (fun p a => ensureLabel p (ArchLabelValue a) "") pod

/-- Number of scheduling gates carrying the operator's well-known gate name. -/
def gateCount (pod : Pod) : Nat :=
  (pod.spec.schedulingGates.getD []).countP (fun g => g.name == SchedulingGateName)

/-- Modelled from the spec: `HasSchedulingGate` of the missing `pod.go` is true
iff a scheduling gate with the well-known name is present
(pinned by `TestPod_HasSchedulingGate`). -/
def HasSchedulingGate (pod : Pod) : Bool :=
  (pod.spec.schedulingGates.getD []).any (fun g => g.name == SchedulingGateName)

/-- Modelled from the spec: `ensureSchedulingGate` of the missing `pod.go`
appends the well-known gate unless it is already present, in which case the pod
is returned unchanged (pinned by `TestPod_EnsureSchedulingGate`). -/
def ensureSchedulingGate (pod : Pod) : Pod :=
  if HasSchedulingGate pod then pod
  else { pod with spec := { pod.spec with
    schedulingGates :=
      some (pod.spec.schedulingGates.getD [] ++ [⟨SchedulingGateName⟩]) } }

/-- Modelled from the spec: `RemoveSchedulingGate` of the missing `pod.go`
removes only the well-known gate, preserving the other gates; a nil gate list
stays nil, an existing (possibly empty) list stays a list
(pinned by `TestPod_RemoveSchedulingGate`). -/
def removeSchedulingGate (gates : Option (List PodSchedulingGate)) :
    Option (List PodSchedulingGate) :=
  match gates with
  | none => none
  | some gs => some (gs.filter (fun g => g.name != SchedulingGateName))

/-- `utils.HasControlPlaneNodeSelector`: the node selector map pins a
control-plane or master node. -/
def hasControlPlaneSelectorMap (sel : List (String × String)) : Bool :=
  sel.any (fun p => p.1 == ControlPlaneNodeSelectorLabel || p.1 == MasterNodeSelectorLabel)

/-- Modelled from the spec: `hasControlPlaneNodeSelector` of the missing
`pod.go` (pinned by `TestPod_hasControlPlaneNodeSelector`). -/
def hasControlPlaneNodeSelector (pod : Pod) : Bool :=
  match pod.spec.nodeSelector with
  | none => false
  | some sel => hasControlPlaneSelectorMap sel

/-- `strings.HasPrefix(s, pre)`, on the character lists of the strings. -/
def startsWithStr (s pre : String) : Bool := pre.data.isPrefixOf s.data

/-- A pod is controlled by a DaemonSet owner reference with controller=true. -/
def isDaemonSetControlled (pod : Pod) : Bool :=
  pod.metadata.ownerReferences.any
    (fun o => o.kind == "DaemonSet" && o.controller.getD false)

/-- Modelled from the spec: `shouldIgnorePod` of the missing `pod.go`: ignore a
pod in the operator's own namespace (`opNs`, the value of `utils.Namespace()`),
in a reserved-infra-prefixed namespace, with `spec.nodeName` set, with a
control-plane node selector, or owned by a DaemonSet controller reference with
controller=true (pinned by `TestPod_shouldIgnorePod`). -/
def shouldIgnorePod (opNs : String) (pod : Pod) : Bool :=
  opNs == pod.metadata.namespaceName ||
  startsWithStr pod.metadata.namespaceName "kube-" ||
  startsWithStr pod.metadata.namespaceName "hypershift-" ||
  pod.spec.nodeName != "" ||
  hasControlPlaneNodeSelector pod ||
  isDaemonSetControlled pod

/-- The ignoring condition inlined in the webhook's `Handle`
(scheduling_gate_mutating_webhook.go lines 90-92): operator namespace,
`hypershift-`/`kube-` prefix, nodeName set, or a non-nil node selector pinning a
control-plane node. Owner references are not consulted. -/
def ignoredByHandler (opNs : String) (pod : Pod) : Bool :=
  opNs == pod.metadata.namespaceName ||
  startsWithStr pod.metadata.namespaceName "hypershift-" ||
  startsWithStr pod.metadata.namespaceName "kube-" ||
  pod.spec.nodeName != "" ||
  (pod.spec.nodeSelector.isSome && hasControlPlaneNodeSelector pod)

/-- Gate-list normalization done by the webhook: a nil `schedulingGates` slice
is replaced by an empty one (scheduling_gate_mutating_webhook.go lines 98-100). -/
def normalizeGates (pod : Pod) : Pod :=
  { pod with spec := { pod.spec with
      schedulingGates := some (pod.spec.schedulingGates.getD []) } }

/-- Appending the operator's scheduling gate
(scheduling_gate_mutating_webhook.go line 109). -/
def appendGate (pod : Pod) : Pod :=
  { pod with spec := { pod.spec with
      schedulingGates := some (pod.spec.schedulingGates.getD [] ++ [⟨SchedulingGateName⟩]) } }

/-- The pod-transforming core of `PodSchedulingGateMutatingWebHook.Handle`
(scheduling_gate_mutating_webhook.go lines 83-124), for a successfully decoded
pod: set the "not yet determined" node-affinity label; if the ignoring
condition holds return the pod as is; otherwise normalize a nil gate list to
empty, return unchanged if the well-known gate is already present, else append
the gate and set the "gated" label. -/
def handlePod (opNs : String) (pod : Pod) : Pod :=
  let pod := ensureLabel pod NodeAffinityLabel NodeAffinityLabelValueNotSet
  if ignoredByHandler opNs pod then pod
  else
    let pod := normalizeGates pod
    if HasSchedulingGate pod then pod
    else ensureLabel (appendGate pod) SchedulingGateLabel SchedulingGateLabelValueGated

/-- An admission response: a client error (HTTP-style code) or a patched pod. -/
inductive AdmissionResponse where
  | errored (code : Nat)
  | patched (pod : Pod)
deriving DecidableEq, Repr

/-- `PodSchedulingGateMutatingWebHook.Handle`: a request whose pod fails to
decode is rejected with 400; otherwise the patched-pod response for
`handlePod`. -/
def Handle (opNs : String) (reqPod : Option Pod) : AdmissionResponse :=
  match reqPod with
  | none => .errored 400
  | some pod => .patched (handlePod opNs pod)

/-- The pod carried by a patch response, if any. -/
def responsePod : AdmissionResponse → Option Pod
  | .errored _ => none
  | .patched pod => some pod

/-- `containerImage` of `pod.go`: a normalized image name plus the
cache-bypass flag. -/
structure containerImage where
  imageName : String
  skipCache : Bool
deriving DecidableEq, Repr

/-- Image-name normalization: the docker-reference normalization prefixes the
bare image string with `//` (pinned by `TestPod_imagesNamesSet`). -/
def normalizedImageName (s : String) : String := "//" ++ s

/-- The container image reference of a single container: normalized name, and
`skipCache` true exactly for the "Always" image pull policy. -/
def containerImageOf (c : Container) : containerImage :=
  { imageName := normalizedImageName c.image, skipCache := c.imagePullPolicy == "Always" }

/-- Modelled from the spec: `imagesNamesSet` of the missing `pod.go` collects
the deduplicated set of ContainerImageRef over containers and init-containers;
two entries are equal iff their normalized name and `skipCache` flag agree
(pinned by `TestPod_imagesNamesSet`). The Go `sets.Set` is modelled as a
duplicate-free list in first-occurrence order. -/
def imagesNamesSet (pod : Pod) : List containerImage :=
  ((pod.spec.containers ++ pod.spec.initContainers).map containerImageOf).dedup

/-- Resolve each image reference in order, failing with the first resolution
error (the Go loop returns `nil, err` on the first failing lookup). -/
def resolveAll (resolve : containerImage → Except String (List String)) :
    List containerImage → Except String (List (List String))
  | [] => .ok []
  | i :: is =>
    match resolve i with
    | .error e => .error e
    | .ok s =>
      match resolveAll resolve is with
      | .error e => .error e
      | .ok ss => .ok (s :: ss)

/-- Intersection of two architecture lists. -/
def listInter (a b : List String) : List String := a.filter (fun x => b.contains x)

/-- Intersection across all per-image architecture sets; an empty family gives
the empty set (the Go accumulator stays nil when there is no image). -/
def interAll : List (List String) → List String
  | [] => []
  | s :: ss => ss.foldl listInter s

/-- Lexicographic less-or-equal on character lists, by code point. -/
def lexLe : List Char → List Char → Bool
  | [], _ => true
  | _ :: _, [] => false
  | a :: as, b :: bs =>
    if a.toNat < b.toNat then true
    else if b.toNat < a.toNat then false
    else lexLe as bs

/-- Alphabetical (code-point lexicographic) order on strings, the order used by
Go's `sort.Strings` / `sets.List` on architecture names. -/
def strLeB (a b : String) : Bool := lexLe a.data b.data

/-- The alphabetical order as a relation. -/
def strLeR (a b : String) : Prop := strLeB a b = true

instance : DecidableRel strLeR :=
  fun a b => inferInstanceAs (Decidable (strLeB a b = true))

instance : IsTotal String strLeR :=
  ⟨by
    intro a b
    show lexLe a.data b.data = true ∨ lexLe b.data a.data = true
    generalize a.data = as
    generalize b.data = bs
    induction as generalizing bs with
    | nil => exact Or.inl rfl
    | cons x xs ih =>
      cases bs with
      | nil => exact Or.inr rfl
      | cons y ys =>
        unfold lexLe
        by_cases h1 : x.toNat < y.toNat
        · left
          simp [h1]
        · by_cases h2 : y.toNat < x.toNat
          · right
            simp [h2]
          · simp [h1, h2]
            exact ih ys⟩

instance : IsTrans String strLeR :=
  ⟨by
    intro a b c h1 h2
    show lexLe a.data c.data = true
    rw [show strLeR a b = (lexLe a.data b.data = true) from rfl] at h1
    rw [show strLeR b c = (lexLe b.data c.data = true) from rfl] at h2
    revert h1 h2
    generalize a.data = as
    generalize b.data = bs
    generalize c.data = cs
    intro h1 h2
    induction as generalizing bs cs with
    | nil => rfl
    | cons x xs ih =>
      cases bs with
      | nil => simp [lexLe] at h1
      | cons y ys =>
        cases cs with
        | nil => simp [lexLe] at h2
        | cons z zs =>
          unfold lexLe at h1 h2 ⊢
          by_cases hxy : x.toNat < y.toNat
          · by_cases hyz : y.toNat < z.toNat
            · have hxz : x.toNat < z.toNat := Nat.lt_trans hxy hyz
              simp [hxz]
            · by_cases hzy : z.toNat < y.toNat
              · simp [hyz, hzy] at h2
              · have hyzeq : y.toNat = z.toNat :=
                  Nat.le_antisymm (Nat.le_of_not_lt hzy) (Nat.le_of_not_lt hyz)
                have hxz : x.toNat < z.toNat := hyzeq ▸ hxy
                simp [hxz]
          · by_cases hyx : y.toNat < x.toNat
            · simp [hxy, hyx] at h1
            · have hxyeq : x.toNat = y.toNat :=
                Nat.le_antisymm (Nat.le_of_not_lt hyx) (Nat.le_of_not_lt hxy)
              simp [hxy, hyx] at h1
              by_cases hyz : y.toNat < z.toNat
              · have hxz : x.toNat < z.toNat := hxyeq ▸ hyz
                simp [hxz]
              · by_cases hzy : z.toNat < y.toNat
                · simp [hyz, hzy] at h2
                · have hyzeq : y.toNat = z.toNat :=
                    Nat.le_antisymm (Nat.le_of_not_lt hzy) (Nat.le_of_not_lt hyz)
                  simp [hyz, hzy] at h2
                  have hxz : ¬ x.toNat < z.toNat := by
                    rw [hxyeq, hyzeq]
                    exact Nat.lt_irrefl _
                  have hzx : ¬ z.toNat < x.toNat := by
                    rw [hxyeq, hyzeq]
                    exact Nat.lt_irrefl _
                  simp [hxz, hzx]
                  exact ih ys zs h1 h2⟩

/-- `sets.List`: the alphabetically sorted, duplicate-free list of a set's
elements. -/
def sortedSetList (l : List String) : List String :=
  List.insertionSort strLeR l.dedup

/-- Modelled from the spec: `intersectImagesArchitecture` of the missing
`pod.go` resolves every distinct image reference of the pod, fails with the
resolution error if any lookup fails, and otherwise returns the sorted list of
the architectures common to all images (pinned by
`TestPod_intersectImagesArchitecture`). The cache-backed resolver facade is
abstracted as the function `resolve`. -/
def intersectImagesArchitecture (resolve : containerImage → Except String (List String))
    (pod : Pod) : Except String (List String) :=
  match resolveAll resolve (imagesNamesSet pod) with
  | .error e => .error e
  | .ok ss => .ok (sortedSetList (interAll ss))

/-- Modelled from the spec: `getArchitecturePredicate` of the missing `pod.go`:
a non-empty intersection yields `{ArchLabel, In, sorted intersection}`; an
empty one yields `{NoSupportedArchLabel, Exists}` with a nil values slice; a
resolution error is propagated (pinned by `TestPod_getArchitecturePredicate`). -/
def getArchitecturePredicate (resolve : containerImage → Except String (List String))
    (pod : Pod) : Except String NodeSelectorRequirement :=
  match intersectImagesArchitecture resolve pod with
  | .error e => .error e
  | .ok [] => .ok { key := NoSupportedArchLabel, operator := .opExists, values := none }
  | .ok (a :: as) => .ok { key := ArchLabel, operator := .opIn, values := some (a :: as) }

/-- Whether a node selector term already carries an expression with `k` as key. -/
def termHasKey (t : NodeSelectorTerm) (k : String) : Bool :=
  t.matchExpressions.any (fun e => e.key == k)

/-- Modelled from the spec: the per-term merge step of
`setRequiredArchNodeAffinity` of the missing `pod.go`. A term that already has
an expression with the predicate's key is left unchanged (the repository's
`TestPod_setArchNodeAffinity` pins this: a pre-existing architecture expression
keeps its values); a term without one gets the predicate appended. -/
def setArchInTerm (req : NodeSelectorRequirement) (t : NodeSelectorTerm) : NodeSelectorTerm :=
  if termHasKey t req.key then t
  else { matchExpressions := t.matchExpressions ++ [req] }

/-- The required node selector terms of a pod ([] when any level is absent). -/
def requiredTerms (pod : Pod) : List NodeSelectorTerm :=
  match pod.spec.affinity with
  | none => []
  | some a =>
    match a.nodeAffinity with
    | none => []
    | some na =>
      match na.requiredDuringSchedulingIgnoredDuringExecution with
      | none => []
      | some sel => sel.nodeSelectorTerms

/-- The pod-affinity part of a pod's affinity, if any. -/
def podAffinityOf (pod : Pod) : Option (List PodAffinityTerm) :=
  pod.spec.affinity.bind (fun a => a.podAffinity)

/-- The pod-anti-affinity part of a pod's affinity, if any. -/
def podAntiAffinityOf (pod : Pod) : Option (List PodAffinityTerm) :=
  pod.spec.affinity.bind (fun a => a.podAntiAffinity)

/-- The preferred-during-scheduling terms of a pod ([] when absent). -/
def preferredTermsOf (pod : Pod) : List PreferredSchedulingTerm :=
  match pod.spec.affinity with
  | none => []
  | some a =>
    match a.nodeAffinity with
    | none => []
    | some na => na.preferredDuringSchedulingIgnoredDuringExecution

/-- Modelled from the spec: `setRequiredArchNodeAffinity` of the missing
`pod.go` materializes the affinity/nodeAffinity/required chain, uses one fresh
empty term when no term exists, and applies the per-term merge to every term;
pod affinity and preferred scheduling terms are untouched (pinned by
`TestPod_setArchNodeAffinity` and `TestPod_SetNodeAffinityArchRequirement`). -/
def setRequiredArchNodeAffinity (pod : Pod) (req : NodeSelectorRequirement) : Pod :=
  let aff := pod.spec.affinity.getD { nodeAffinity := none, podAffinity := none, podAntiAffinity := none }
  let na := aff.nodeAffinity.getD
    { requiredDuringSchedulingIgnoredDuringExecution := none
      preferredDuringSchedulingIgnoredDuringExecution := [] }
  let sel := na.requiredDuringSchedulingIgnoredDuringExecution.getD { nodeSelectorTerms := [] }
  let terms := if sel.nodeSelectorTerms.isEmpty then [{ matchExpressions := [] }] else sel.nodeSelectorTerms
  let terms := terms.map (setArchInTerm req)
  { pod with spec := { pod.spec with
      affinity := some { aff with
        nodeAffinity := some { na with
          requiredDuringSchedulingIgnoredDuringExecution := some { nodeSelectorTerms := terms } } } } }

/-- Modelled from the spec: `SetNodeAffinityArchRequirement` of the missing
`pod.go` computes the architecture predicate and, on success, merges it into
the pod's required node affinity; on a resolution error the pod is returned
untouched together with the error (pinned by
`TestPod_SetNodeAffinityArchRequirement`). -/
def SetNodeAffinityArchRequirement (resolve : containerImage → Except String (List String))
    (pod : Pod) : Pod × Option String :=
  match getArchitecturePredicate resolve pod with
  | .error e => (pod, some e)
  | .ok req => (setRequiredArchNodeAffinity pod req, none)

/-- A minimal pod in a regular namespace: no labels, no gates, no affinity. -/
def blankPod : Pod :=
  { metadata := { namespaceName := "default", name := "p", labels := none, ownerReferences := [] }
    spec := { containers := [], initContainers := [], schedulingGates := none, nodeName := ""
              nodeSelector := none, affinity := none, imagePullSecrets := [] } }

/-- A test double for the image-architecture resolver facade: two multi-arch
images (returned in non-alphabetical order), two single-arch images, anything
else unresolvable. -/
def fakeResolve : containerImage → Except String (List String) := fun i =>
  if i.imageName == normalizedImageName "registry.io/multi" then .ok ["arm64", "amd64"]
  else if i.imageName == normalizedImageName "registry.io/multi2" then
    .ok ["s390x", "arm64", "amd64", "ppc64le"]
  else if i.imageName == normalizedImageName "registry.io/amd" then .ok ["amd64"]
  else if i.imageName == normalizedImageName "registry.io/arm" then .ok ["arm64"]
  else .error "err-resolving"

/-- The concrete input of the repository's merge test: one term already
carrying an architecture expression pinned to s390x, one term without. -/
def c1Pod : Pod :=
  { blankPod with spec := { blankPod.spec with
      containers := [{ image := "registry.io/multi", imagePullPolicy := "" }]
      affinity := some
        { nodeAffinity := some
            { requiredDuringSchedulingIgnoredDuringExecution := some
                { nodeSelectorTerms :=
                    [ { matchExpressions :=
                          [ { key := "foo", operator := .opIn, values := some ["bar"] }
                          , { key := ArchLabel, operator := .opIn, values := some [ArchitectureS390x] } ] }
                    , { matchExpressions :=
                          [ { key := "baz", operator := .opIn, values := some ["foo"] } ] } ] }
              preferredDuringSchedulingIgnoredDuringExecution := [] }
          podAffinity := none
          podAntiAffinity := none } } }

/-- The architecture predicate of the merge test: amd64+arm64. -/
def c1Req : NodeSelectorRequirement :=
  { key := ArchLabel, operator := .opIn, values := some [ArchitectureAmd64, ArchitectureArm64] }

/-- A pod owned by a DaemonSet controller reference with controller=true, in a
regular namespace, with no node name, node selector or scheduling gates. -/
def c2Pod : Pod :=
  { blankPod with metadata := { blankPod.metadata with
      ownerReferences := [{ kind := "DaemonSet", controller := some true }] } }

/-- Replace a pod's owner references. -/
def withOwners (pod : Pod) (ors : List OwnerReference) : Pod :=
  { pod with metadata := { pod.metadata with ownerReferences := ors } }

/-- A pod in a `kube-` prefixed namespace: matched by the ignoring rule. -/
def kubePod : Pod :=
  { blankPod with metadata := { blankPod.metadata with namespaceName := "kube-system" } }

/-- A pod with two multi-architecture images whose common set is amd64+arm64. -/
def multiPod : Pod :=
  { blankPod with spec := { blankPod.spec with
      containers := [ { image := "registry.io/multi", imagePullPolicy := "" }
                    , { image := "registry.io/multi2", imagePullPolicy := "" } ] } }

/-- A pod whose two containers reference images sharing no architecture. -/
def conflictPod : Pod :=
  { blankPod with spec := { blankPod.spec with
      containers := [ { image := "registry.io/amd", imagePullPolicy := "" }
                    , { image := "registry.io/arm", imagePullPolicy := "" } ] } }

/-- A pod with a resolvable and an unresolvable image. -/
def badImagePod : Pod :=
  { blankPod with spec := { blankPod.spec with
      containers := [ { image := "registry.io/multi", imagePullPolicy := "" }
                    , { image := "registry.io/broken", imagePullPolicy := "" } ] } }

/-- A pod exercising dedup: a repeated image, an init container, and an
always-pull container sharing a name with a normal-pull one. -/
def dedupPod : Pod :=
  { blankPod with spec := { blankPod.spec with
      containers := [ { image := "registry.io/multi", imagePullPolicy := "" }
                    , { image := "registry.io/multi", imagePullPolicy := "" }
                    , { image := "registry.io/multi", imagePullPolicy := "Always" } ]
      initContainers := [ { image := "registry.io/amd", imagePullPolicy := "" } ] } }

theorem mem_map_fst_upsertLabel (l : List (String × String)) (k v s : String) :
    s ∈ (upsertLabel l k v).map Prod.fst ↔ s ∈ l.map Prod.fst ∨ s = k := by
  unfold upsertLabel
  by_cases h : l.any (fun p => p.1 == k)
  · rw [if_pos h, List.map_map]
    rw [List.any_eq_true] at h
    obtain ⟨q, hq, hqk⟩ := h
    rw [beq_iff_eq] at hqk
    simp only [List.mem_map, Function.comp_apply]
    constructor
    · rintro ⟨p, hp, hfp⟩
      by_cases hk : p.1 = k
      · right
        rw [← hfp, hk]
        simp
      · left
        refine ⟨p, hp, ?_⟩
        rw [← hfp]
        simp [hk]
    · rintro (⟨p, hp, hfp⟩ | rfl)
      · refine ⟨p, hp, ?_⟩
        by_cases hk : p.1 = k
        · rw [← hfp, hk]
          simp
        · rw [← hfp]
          simp [hk]
      · exact ⟨q, hq, by simp [hqk]⟩
  · rw [if_neg h, List.map_append]
    simp

theorem mem_labelKeys_ensureLabel (pod : Pod) (k v s : String) :
    s ∈ labelKeys (ensureLabel pod k v) ↔ s ∈ labelKeys pod ∨ s = k := by
  unfold labelKeys ensureLabel
  exact mem_map_fst_upsertLabel _ k v s

theorem find_map_replace (l : List (String × String)) (k v : String)
    (h : l.any (fun p => p.1 == k) = true) :
    (l.map (fun p => if p.1 == k then (k, v) else p)).find? (fun p => p.1 == k) = some (k, v) := by
  induction l with
  | nil => simp at h
  | cons p t ih =>
    by_cases hp : p.1 = k
    · simp [List.find?_cons, hp]
    · have hpk : (p.1 == k) = false := by simp [hp]
      have h' : t.any (fun p => p.1 == k) = true := by
        simp only [List.any_cons, hpk, Bool.false_or] at h
        exact h
      simp only [List.map_cons, List.find?_cons, hpk, if_false]
      simpa [hpk] using ih h'

theorem find_upsertLabel_self (l : List (String × String)) (k v : String) :
    (upsertLabel l k v).find? (fun p => p.1 == k) = some (k, v) := by
  unfold upsertLabel
  by_cases h : l.any (fun p => p.1 == k)
  · rw [if_pos h]
    exact find_map_replace l k v h
  · rw [if_neg h]
    have hnone : l.find? (fun p => p.1 == k) = none := by
      rw [List.find?_eq_none]
      intro p hp
      intro hpk
      exact h (List.any_eq_true.mpr ⟨p, hp, hpk⟩)
    rw [List.find?_append, hnone]
    simp

theorem find_upsertLabel_ne (l : List (String × String)) (k v k2 : String) (hne : k2 ≠ k) :
    (upsertLabel l k v).find? (fun p => p.1 == k2) = l.find? (fun p => p.1 == k2) := by
  have hkk2 : k ≠ k2 := fun he => hne he.symm
  unfold upsertLabel
  by_cases h : l.any (fun p => p.1 == k)
  · rw [if_pos h]
    clear h
    induction l with
    | nil => simp
    | cons p t ih =>
      by_cases hp : p.1 = k
      · have hpk : (p.1 == k) = true := by simp [hp]
        have h1 : ((k, v).1 == k2) = false := by simp [hkk2]
        have h2 : (p.1 == k2) = false := by simp [hp, hkk2]
        rw [List.map_cons, List.find?_cons, List.find?_cons, hpk]
        simp only [if_true, h1, h2, if_false]
        exact ih
      · have hpk : (p.1 == k) = false := by simp [hp]
        rw [List.map_cons, List.find?_cons, List.find?_cons, hpk]
        simp only [Bool.false_eq_true, if_false]
        by_cases hq : p.1 = k2
        · have : (p.1 == k2) = true := by simp [hq]
          simp [this]
        · have : (p.1 == k2) = false := by simp [hq]
          simp only [this, if_false]
          exact ih
  · rw [if_neg h, List.find?_append]
    have h1 : ((k, v).1 == k2) = false := by simp [hkk2]
    cases hfind : l.find? (fun p => p.1 == k2) with
    | none => simp [List.find?, h1]
    | some q => simp

theorem getLabel_ensureLabel_self (pod : Pod) (k v : String) :
    getLabel (ensureLabel pod k v) k = some v := by
  unfold getLabel ensureLabel
  simp only [Option.getD_some]
  rw [find_upsertLabel_self]
  rfl

theorem getLabel_ensureLabel_ne (pod : Pod) (k v k2 : String) (hne : k2 ≠ k) :
    getLabel (ensureLabel pod k v) k2 = getLabel pod k2 := by
  unfold getLabel ensureLabel
  simp only [Option.getD_some]
  rw [find_upsertLabel_ne _ _ _ _ hne]

theorem spec_ensureLabel (pod : Pod) (k v : String) : (ensureLabel pod k v).spec = pod.spec := rfl

/-- C10: when the architecture expression's values sequence is nil (absent), as
opposed to present but empty, `ensureArchitectureLabels` sets no labels at all
on the pod — in particular not the "no-supported-architecture" label, which the
present-but-empty case sets. -/
theorem c10_nil_values_sets_no_labels (pod : Pod) (req : NodeSelectorRequirement)
    (h : req.values = none) : ensureArchitectureLabels pod req = pod := by
  unfold ensureArchitectureLabels
  rw [h]

/-- C10 witness: on a concrete pod, a nil-values expression leaves the pod
untouched, while the present-but-empty expression does set the
"no-supported-architecture" label. -/
theorem c10_witness :
    ensureArchitectureLabels blankPod { key := "k", operator := .opExists, values := none } =
      blankPod ∧
    (ensureArchitectureLabels blankPod
        { key := "k", operator := .opExists, values := some [] }).metadata.labels =
      some [(NoSupportedArchLabel, "")] :=
  ⟨c10_nil_values_sets_no_labels blankPod _ rfl, rfl⟩

/-- C9: removing the well-known scheduling gate removes only the gates with
that name and preserves the relative order (and multiplicity) of all other
gates; an existing (possibly empty) gate list stays a present, possibly empty
list, and an absent (nil) gate list stays nil. -/
theorem c9_remove_gate_frame (gs : List PodSchedulingGate) :
    removeSchedulingGate none = none ∧
    ∃ l, removeSchedulingGate (some gs) = some l ∧
      l.Sublist gs ∧
      (∀ g : PodSchedulingGate, g.name ≠ SchedulingGateName → l.count g = gs.count g) ∧
      (∀ g ∈ l, g.name ≠ SchedulingGateName) := by
  refine ⟨rfl, gs.filter (fun g => g.name != SchedulingGateName), rfl, List.filter_sublist gs,
    ?_, ?_⟩
  · intro g hg
    refine List.count_filter ?_
    simp [hg]
  · intro g hg
    have := List.of_mem_filter hg
    simpa using this

/-- C9 witness: on the concrete gate list of the repository's test, only the
well-known gate disappears and the others keep their order. -/
theorem c9_witness :
    removeSchedulingGate
        (some [⟨"some-other-scheduling-gate-bar"⟩, ⟨SchedulingGateName⟩,
               ⟨"some-other-scheduling-gate-foo"⟩]) =
      some [⟨"some-other-scheduling-gate-bar"⟩, ⟨"some-other-scheduling-gate-foo"⟩] ∧
    ∀ g : PodSchedulingGate, g.name ≠ SchedulingGateName →
      ([(⟨"some-other-scheduling-gate-bar"⟩ : PodSchedulingGate),
        ⟨"some-other-scheduling-gate-foo"⟩] : List PodSchedulingGate).count g =
      ([(⟨"some-other-scheduling-gate-bar"⟩ : PodSchedulingGate), ⟨SchedulingGateName⟩,
        ⟨"some-other-scheduling-gate-foo"⟩] : List PodSchedulingGate).count g := by
  constructor
  · decide
  · intro g hg
    have h := (c9_remove_gate_frame
      [⟨"some-other-scheduling-gate-bar"⟩, ⟨SchedulingGateName⟩,
       ⟨"some-other-scheduling-gate-foo"⟩]).2
    obtain ⟨l, hl, _, hcount, _⟩ := h
    have hl2 : l = [(⟨"some-other-scheduling-gate-bar"⟩ : PodSchedulingGate),
        ⟨"some-other-scheduling-gate-foo"⟩] := by
      have : removeSchedulingGate
          (some [⟨"some-other-scheduling-gate-bar"⟩, ⟨SchedulingGateName⟩,
                 ⟨"some-other-scheduling-gate-foo"⟩]) =
          some [(⟨"some-other-scheduling-gate-bar"⟩ : PodSchedulingGate),
                ⟨"some-other-scheduling-gate-foo"⟩] := by decide
      rw [hl] at this
      exact Option.some.inj this
    rw [← hl2]
    exact hcount g hg

/-- C7: the image-reference extraction over containers and init-containers
yields a duplicate-free collection with exactly one entry per distinct
(normalized image name, skipCache) pair, where an entry is in the collection
iff some container or init-container produces it, and `skipCache` is set iff
the container's pull policy is "Always". -/
theorem c7_images_dedup (pod : Pod) :
    (imagesNamesSet pod).Nodup ∧
    (∀ ci : containerImage, ci ∈ imagesNamesSet pod ↔
      ∃ c ∈ pod.spec.containers ++ pod.spec.initContainers, ci = containerImageOf c) ∧
    (∀ c : Container, (containerImageOf c).skipCache = true ↔ c.imagePullPolicy = "Always") := by
  refine ⟨List.nodup_dedup _, ?_, ?_⟩
  · intro ci
    unfold imagesNamesSet
    rw [List.mem_dedup, List.mem_map]
    constructor
    · rintro ⟨c, hc, rfl⟩
      exact ⟨c, hc, rfl⟩
    · rintro ⟨c, hc, rfl⟩
      exact ⟨c, hc, rfl⟩
  · intro c
    unfold containerImageOf
    simp

@[simp] theorem ignoredByHandler_ensureLabel (opNs : String) (pod : Pod) (k v : String) :
    ignoredByHandler opNs (ensureLabel pod k v) = ignoredByHandler opNs pod := rfl

@[simp] theorem hasGate_ensureLabel (pod : Pod) (k v : String) :
    HasSchedulingGate (ensureLabel pod k v) = HasSchedulingGate pod := rfl

@[simp] theorem gates_ensureLabel (pod : Pod) (k v : String) :
    (ensureLabel pod k v).spec.schedulingGates = pod.spec.schedulingGates := rfl

@[simp] theorem gateCount_ensureLabel (pod : Pod) (k v : String) :
    gateCount (ensureLabel pod k v) = gateCount pod := rfl

theorem hasGate_iff_gateCount (pod : Pod) : HasSchedulingGate pod = true ↔ 1 ≤ gateCount pod := by
  unfold HasSchedulingGate gateCount
  rw [List.any_eq_true]
  rw [show (1 ≤ (pod.spec.schedulingGates.getD []).countP fun g => g.name == SchedulingGateName) ↔
    (0 < (pod.spec.schedulingGates.getD []).countP fun g => g.name == SchedulingGateName) from
    Iff.rfl]
  rw [List.countP_pos_iff]

@[simp] theorem hasGate_normalizeGates (pod : Pod) :
    HasSchedulingGate (normalizeGates pod) = HasSchedulingGate pod := rfl

@[simp] theorem gateCount_normalizeGates (pod : Pod) :
    gateCount (normalizeGates pod) = gateCount pod := rfl

@[simp] theorem gates_normalizeGates (pod : Pod) :
    (normalizeGates pod).spec.schedulingGates = some (pod.spec.schedulingGates.getD []) := rfl

@[simp] theorem gates_appendGate (pod : Pod) :
    (appendGate pod).spec.schedulingGates =
      some (pod.spec.schedulingGates.getD [] ++ [⟨SchedulingGateName⟩]) := rfl

theorem gateCount_appendGate (pod : Pod) : gateCount (appendGate pod) = gateCount pod + 1 := by
  unfold gateCount appendGate
  simp only [Option.getD_some, List.countP_append]
  simp [SchedulingGateName]

theorem normalizeGates_of_some (pod : Pod) (l : List PodSchedulingGate)
    (h : pod.spec.schedulingGates = some l) : normalizeGates pod = pod := by
  have h2 : some (pod.spec.schedulingGates.getD []) = pod.spec.schedulingGates := by
    rw [h]
    simp
  unfold normalizeGates
  rw [h2]

theorem gates_some_of_hasGate (pod : Pod) (h : HasSchedulingGate pod = true) :
    pod.spec.schedulingGates = some (pod.spec.schedulingGates.getD []) := by
  cases hgs : pod.spec.schedulingGates with
  | none =>
    unfold HasSchedulingGate at h
    rw [hgs] at h
    simp at h
  | some l => rfl

theorem gateCount_zero_of_not_hasGate (pod : Pod) (h : HasSchedulingGate pod = false) :
    gateCount pod = 0 := by
  by_contra hne
  have h1 : 1 ≤ gateCount pod := Nat.one_le_iff_ne_zero.mpr hne
  rw [← hasGate_iff_gateCount, h] at h1
  exact Bool.false_ne_true h1

/-- C3: for every pod processed by the admission handler core or by the
gate-insertion operation, gate insertion is idempotent — a pod already carrying
the well-known gate is returned with its gates untouched (`ensureSchedulingGate`
returns the pod itself unchanged), otherwise exactly one instance is appended —
so a pod with at most one instance of the gate still has at most one
afterwards. -/
theorem c3_gate_idempotent_at_most_one (opNs : String) (pod : Pod) :
    (HasSchedulingGate pod = true →
      ensureSchedulingGate pod = pod ∧
      (handlePod opNs pod).spec.schedulingGates = pod.spec.schedulingGates) ∧
    (HasSchedulingGate pod = false →
      (ensureSchedulingGate pod).spec.schedulingGates =
        some (pod.spec.schedulingGates.getD [] ++ [⟨SchedulingGateName⟩]) ∧
      gateCount (ensureSchedulingGate pod) = gateCount pod + 1 ∧
      (ignoredByHandler opNs pod = false →
        (handlePod opNs pod).spec.schedulingGates =
          some (pod.spec.schedulingGates.getD [] ++ [⟨SchedulingGateName⟩]))) ∧
    (gateCount pod ≤ 1 →
      gateCount (ensureSchedulingGate pod) ≤ 1 ∧ gateCount (handlePod opNs pod) ≤ 1) := by
  have hens : HasSchedulingGate pod = false →
      ensureSchedulingGate pod = appendGate pod := by
    intro h
    unfold ensureSchedulingGate appendGate
    rw [h]
    simp
  refine ⟨?_, ?_, ?_⟩
  · intro h
    constructor
    · unfold ensureSchedulingGate
      rw [if_pos h]
    · unfold handlePod
      simp only [ignoredByHandler_ensureLabel]
      by_cases hig : ignoredByHandler opNs pod
      · simp [hig]
      · simp only [hig, Bool.false_eq_true, if_false, hasGate_normalizeGates,
          hasGate_ensureLabel, h, if_true]
        rw [gates_normalizeGates, gates_ensureLabel]
        exact (gates_some_of_hasGate pod h).symm
  · intro h
    refine ⟨?_, ?_, ?_⟩
    · rw [hens h]
      rfl
    · rw [hens h]
      exact gateCount_appendGate pod
    · intro hig
      unfold handlePod
      simp only [ignoredByHandler_ensureLabel, hig, Bool.false_eq_true, if_false,
        hasGate_normalizeGates, hasGate_ensureLabel, h, if_false]
      rw [gates_ensureLabel, gates_appendGate, gates_normalizeGates]
      simp
  · intro h
    constructor
    · by_cases hg : HasSchedulingGate pod
      · unfold ensureSchedulingGate
        rw [if_pos hg]
        exact h
      · have hg2 := Bool.of_not_eq_true hg
        rw [hens hg2, gateCount_appendGate, gateCount_zero_of_not_hasGate pod hg2]
    · unfold handlePod
      simp only [ignoredByHandler_ensureLabel]
      by_cases hig : ignoredByHandler opNs pod
      · simpa [hig] using h
      · simp only [hig, Bool.false_eq_true, if_false, hasGate_normalizeGates,
          hasGate_ensureLabel]
        by_cases hg : HasSchedulingGate pod
        · simpa [hg] using h
        · have hg2 := Bool.of_not_eq_true hg
          simp only [hg2, Bool.false_eq_true, if_false]
          rw [show gateCount (ensureLabel (appendGate (normalizeGates (ensureLabel pod
              NodeAffinityLabel NodeAffinityLabelValueNotSet))) SchedulingGateLabel
              SchedulingGateLabelValueGated) = gateCount (appendGate (normalizeGates
              (ensureLabel pod NodeAffinityLabel NodeAffinityLabelValueNotSet))) from rfl]
          rw [gateCount_appendGate, gateCount_normalizeGates, gateCount_ensureLabel,
            gateCount_zero_of_not_hasGate pod hg2]
/-- C3 witness: a gate-free pod gets exactly one gate from both the handler
core and `ensureSchedulingGate`, and a pod already gated is left unchanged. -/
theorem c3_witness :
    HasSchedulingGate blankPod = false ∧
    gateCount (ensureSchedulingGate blankPod) = gateCount blankPod + 1 ∧
    gateCount (handlePod "mto-ns" blankPod) ≤ 1 ∧
    ensureSchedulingGate (ensureSchedulingGate blankPod) = ensureSchedulingGate blankPod := by
  have h1 := ((c3_gate_idempotent_at_most_one "mto-ns" blankPod).2.1 (by decide)).2.1
  have h2 := ((c3_gate_idempotent_at_most_one "mto-ns" blankPod).2.2 (by decide)).2
  have h3 := ((c3_gate_idempotent_at_most_one "mto-ns"
    (ensureSchedulingGate blankPod)).1 (by decide)).1
  exact ⟨by decide, h1, h2, h3⟩

theorem mem_labelKeys_foldl_arch (vs : List String) (pod : Pod) (s : String) :
    s ∈ labelKeys (vs.foldl (fun p a => ensureLabel p (ArchLabelValue a) "") pod) ↔
      s ∈ labelKeys pod ∨ ∃ a ∈ vs, s = ArchLabelValue a := by
  induction vs generalizing pod with
  | nil => simp
  | cons a t ih =>
    rw [List.foldl_cons, ih, mem_labelKeys_ensureLabel]
    constructor
    · rintro ((h | rfl) | ⟨b, hb, rfl⟩)
      · exact Or.inl h
      · exact Or.inr ⟨a, by simp⟩
      · exact Or.inr ⟨b, by simp [hb]⟩
    · rintro (h | ⟨b, hb, rfl⟩)
      · exact Or.inl (Or.inl h)
      · rcases List.mem_cons.mp hb with rfl | hb2
        · exact Or.inl (Or.inr rfl)
        · exact Or.inr ⟨b, hb2, rfl⟩

/-- C8: on a pod without labels, the label bookkeeper produces exactly the
expected label keys and no stray ones: zero (present) values give exactly the
"no-supported-architecture" label; one value the "single-architecture" label
plus that architecture's label; several values the "multi-architecture" label
plus one label per value. -/
theorem c8_architecture_labels_exact (pod : Pod) (req : NodeSelectorRequirement)
    (vs : List String) (hl : pod.metadata.labels = none) (hv : req.values = some vs) :
    (vs = [] → (ensureArchitectureLabels pod req).metadata.labels =
      some [(NoSupportedArchLabel, "")]) ∧
    (∀ a, vs = [a] → ∀ s, s ∈ labelKeys (ensureArchitectureLabels pod req) ↔
      s = SingleArchLabel ∨ s = ArchLabelValue a) ∧
    (2 ≤ vs.length → ∀ s, s ∈ labelKeys (ensureArchitectureLabels pod req) ↔
      s = MultiArchLabel ∨ ∃ a ∈ vs, s = ArchLabelValue a) := by
  have hkeys : labelKeys pod = [] := by
    unfold labelKeys
    rw [hl]
    rfl
  unfold ensureArchitectureLabels
  rw [hv]
  refine ⟨?_, ?_, ?_⟩
  · rintro rfl
    simp only [List.foldl_nil]
    unfold ensureLabel upsertLabel
    rw [hl]
    simp
  · rintro a rfl s
    simp only [List.foldl_cons, List.foldl_nil]
    rw [mem_labelKeys_ensureLabel, mem_labelKeys_ensureLabel, hkeys]
    simp only [List.not_mem_nil, false_or]
  · intro h2 s
    match vs, h2 with
    | a :: b :: t, _ =>
      rw [mem_labelKeys_foldl_arch, mem_labelKeys_ensureLabel, hkeys]
      simp only [List.not_mem_nil, false_or]

/-- C8 witness: a two-valued expression on a fresh pod yields the
"multi-architecture" key (among exactly the expected keys). -/
theorem c8_witness :
    MultiArchLabel ∈ labelKeys (ensureArchitectureLabels blankPod
      { key := ArchLabel, operator := .opIn,
        values := some [ArchitectureAmd64, ArchitectureArm64] }) :=
  (((c8_architecture_labels_exact blankPod _ [ArchitectureAmd64, ArchitectureArm64]
    rfl rfl).2.2 (by decide)) MultiArchLabel).mpr (Or.inl rfl)

theorem requiredTerms_setRequired (pod : Pod) (req : NodeSelectorRequirement) :
    requiredTerms (setRequiredArchNodeAffinity pod req) =
      (if (requiredTerms pod).isEmpty then [{ matchExpressions := [] }]
       else requiredTerms pod).map (setArchInTerm req) := by
  rcases pod with ⟨meta, ⟨cs, ics, gates, nn, nsel, aff, ips⟩⟩
  cases aff with
  | none => rfl
  | some a =>
    rcases a with ⟨na, pa, paa⟩
    cases na with
    | none => rfl
    | some na2 =>
      rcases na2 with ⟨rq, pref⟩
      cases rq with
      | none => rfl
      | some sel => rfl

/-- C1 counterexample: on the repository's own merge-test input — a term
already carrying an architecture expression pinned to s390x and a term
without one — the merge leaves the s390x expression in place: the first term
of the result does not carry the newly computed amd64+arm64 expression, while
the second does; so a pre-existing architecture expression with different
values survives, refuting the "replace in each term" reading. -/
theorem c1_counterexample :
    c1Req = { key := ArchLabel, operator := .opIn,
              values := some [ArchitectureAmd64, ArchitectureArm64] } ∧
    requiredTerms (setRequiredArchNodeAffinity c1Pod c1Req) =
      [ { matchExpressions :=
            [ { key := "foo", operator := .opIn, values := some ["bar"] }
            , { key := ArchLabel, operator := .opIn, values := some [ArchitectureS390x] } ] }
      , { matchExpressions :=
            [ { key := "baz", operator := .opIn, values := some ["foo"] }
            , c1Req ] } ] ∧
    c1Req ∉ ({ matchExpressions :=
        [ { key := "foo", operator := .opIn, values := some ["bar"] }
        , { key := ArchLabel, operator := .opIn, values := some [ArchitectureS390x] } ] }
      : NodeSelectorTerm).matchExpressions ∧
    ({ key := ArchLabel, operator := .opIn, values := some [ArchitectureS390x] }
      : NodeSelectorRequirement).key = c1Req.key := by decide

/-- C1 amended: when node selector terms exist, the merge keeps the number of
terms; a term that already has an expression with the predicate's key is left
entirely unchanged (its pre-existing architecture expression, values included,
survives), and the predicate expression is appended only to terms lacking one;
an absent or empty term list becomes exactly one term holding only the
predicate; other affinity kinds, preferred terms, scheduling gates and
metadata are untouched. -/
theorem c1_merge_skips_terms_with_key (pod : Pod) (req : NodeSelectorRequirement) :
    (requiredTerms pod = [] →
      requiredTerms (setRequiredArchNodeAffinity pod req) = [{ matchExpressions := [req] }]) ∧
    (requiredTerms pod ≠ [] →
      (requiredTerms (setRequiredArchNodeAffinity pod req)).length =
        (requiredTerms pod).length ∧
      ∀ (i : Nat) (t : NodeSelectorTerm), (requiredTerms pod)[i]? = some t →
        (termHasKey t req.key = true →
          (requiredTerms (setRequiredArchNodeAffinity pod req))[i]? = some t) ∧
        (termHasKey t req.key = false →
          (requiredTerms (setRequiredArchNodeAffinity pod req))[i]? =
            some ({ matchExpressions := t.matchExpressions ++ [req] } : NodeSelectorTerm))) ∧
    (setRequiredArchNodeAffinity pod req).metadata = pod.metadata ∧
    podAffinityOf (setRequiredArchNodeAffinity pod req) = podAffinityOf pod ∧
    podAntiAffinityOf (setRequiredArchNodeAffinity pod req) = podAntiAffinityOf pod ∧
    preferredTermsOf (setRequiredArchNodeAffinity pod req) = preferredTermsOf pod ∧
    (setRequiredArchNodeAffinity pod req).spec.schedulingGates =
      pod.spec.schedulingGates := by
  have hframe : (setRequiredArchNodeAffinity pod req).metadata = pod.metadata ∧
      podAffinityOf (setRequiredArchNodeAffinity pod req) = podAffinityOf pod ∧
      podAntiAffinityOf (setRequiredArchNodeAffinity pod req) = podAntiAffinityOf pod ∧
      preferredTermsOf (setRequiredArchNodeAffinity pod req) = preferredTermsOf pod ∧
      (setRequiredArchNodeAffinity pod req).spec.schedulingGates =
        pod.spec.schedulingGates := by
    rcases pod with ⟨meta, ⟨cs, ics, gates, nn, nsel, aff, ips⟩⟩
    cases aff with
    | none => exact ⟨rfl, rfl, rfl, rfl, rfl⟩
    | some a =>
      rcases a with ⟨na, pa, paa⟩
      cases na with
      | none => exact ⟨rfl, rfl, rfl, rfl, rfl⟩
      | some na2 =>
        rcases na2 with ⟨rq, pref⟩
        cases rq with
        | none => exact ⟨rfl, rfl, rfl, rfl, rfl⟩
        | some sel => exact ⟨rfl, rfl, rfl, rfl, rfl⟩
  refine ⟨?_, ?_, hframe.1, hframe.2.1, hframe.2.2.1, hframe.2.2.2.1, hframe.2.2.2.2⟩
  · intro h
    rw [requiredTerms_setRequired, h]
    simp [setArchInTerm, termHasKey]
  · intro h
    have hne : (requiredTerms pod).isEmpty = false := by
      cases hrt : requiredTerms pod with
      | nil => exact absurd hrt h
      | cons t ts => rfl
    rw [requiredTerms_setRequired, hne]
    simp only [Bool.false_eq_true, if_false]
    refine ⟨List.length_map _ _, ?_⟩
    intro i t ht
    have hmap : ((requiredTerms pod).map (setArchInTerm req))[i]? =
        some (setArchInTerm req t) := by
      rw [List.getElem?_map, ht]
      rfl
    constructor
    · intro hk
      rw [hmap]
      unfold setArchInTerm
      rw [hk]
      simp
    · intro hk
      rw [hmap]
      unfold setArchInTerm
      rw [hk]
      simp

/-- C1 amended witness: on the merge-test pod, the term count is preserved and
the first term (which already has the architecture key) is returned verbatim,
while the second term receives the appended predicate. -/
theorem c1_amended_witness :
    (requiredTerms (setRequiredArchNodeAffinity c1Pod c1Req)).length =
      (requiredTerms c1Pod).length ∧
    (requiredTerms (setRequiredArchNodeAffinity c1Pod c1Req))[0]? =
      some { matchExpressions :=
        [ { key := "foo", operator := .opIn, values := some ["bar"] }
        , { key := ArchLabel, operator := .opIn, values := some [ArchitectureS390x] } ] } ∧
    (requiredTerms (setRequiredArchNodeAffinity c1Pod c1Req))[1]? =
      some { matchExpressions :=
        [ { key := "baz", operator := .opIn, values := some ["foo"] }
        , c1Req ] } := by
  have h := (c1_merge_skips_terms_with_key c1Pod c1Req).2.1 (by decide)
  refine ⟨h.1, ?_, ?_⟩
  · exact (h.2 0 { matchExpressions :=
      [ { key := "foo", operator := .opIn, values := some ["bar"] }
      , { key := ArchLabel, operator := .opIn, values := some [ArchitectureS390x] } ] }
      (by decide)).1 (by decide)
  · exact (h.2 1 { matchExpressions :=
      [ { key := "baz", operator := .opIn, values := some ["foo"] } ] }
      (by decide)).2 (by decide)

@[simp] theorem ignoredByHandler_withOwners (opNs : String) (pod : Pod)
    (ors : List OwnerReference) :
    ignoredByHandler opNs (withOwners pod ors) = ignoredByHandler opNs pod := rfl

@[simp] theorem hasGate_withOwners (pod : Pod) (ors : List OwnerReference) :
    HasSchedulingGate (withOwners pod ors) = HasSchedulingGate pod := rfl

theorem isDaemonSetControlled_iff (pod : Pod) :
    isDaemonSetControlled pod = true ↔
      ∃ o ∈ pod.metadata.ownerReferences, o.kind = "DaemonSet" ∧ o.controller = some true := by
  unfold isDaemonSetControlled
  rw [List.any_eq_true]
  constructor
  · rintro ⟨o, ho, hb⟩
    rw [Bool.and_eq_true, beq_iff_eq] at hb
    refine ⟨o, ho, hb.1, ?_⟩
    cases hc : o.controller with
    | none =>
      rw [hc] at hb
      simp at hb
    | some b =>
      rw [hc] at hb
      cases b
      · simp at hb
      · rfl
  · rintro ⟨o, ho, h1, h2⟩
    refine ⟨o, ho, ?_⟩
    rw [Bool.and_eq_true, beq_iff_eq]
    exact ⟨h1, by rw [h2]; rfl⟩

/-- C2 counterexample: a pod owned by a DaemonSet controller reference with
controller=true, in a regular namespace with no node name or selector, is NOT
returned unmodified by the admission handler: the handler appends the
scheduling gate (and mutates labels), since its inlined ignoring condition
never consults owner references. -/
theorem c2_counterexample :
    isDaemonSetControlled c2Pod = true ∧
    gateCount c2Pod = 0 ∧
    responsePod (Handle "openshift-multiarch-tuning-operator" (some c2Pod)) ≠ some c2Pod ∧
    (responsePod (Handle "openshift-multiarch-tuning-operator" (some c2Pod))).map gateCount =
      some 1 := by decide

/-- C2 amended: the DaemonSet ignoring rule lives in the `shouldIgnorePod`
predicate of the reconciliation path, not in the admission handler: a
DaemonSet-controlled pod (controller=true) is ignored by `shouldIgnorePod`,
while owner references with controller=false or absent leave `shouldIgnorePod`
exactly as without them; the admission handler's outcome (the resulting pod
spec: gates, affinity) never depends on owner references at all, so
DaemonSet-owned pods are processed by the handler like any other pod. -/
theorem c2_daemonset_ignored_in_reconcile_not_handler (opNs : String) (pod : Pod) :
    (isDaemonSetControlled pod = true → shouldIgnorePod opNs pod = true) ∧
    (∀ ors : List OwnerReference,
      (∀ o ∈ ors, ¬(o.kind = "DaemonSet" ∧ o.controller = some true)) →
      shouldIgnorePod opNs (withOwners pod ors) = shouldIgnorePod opNs (withOwners pod [])) ∧
    (∀ ors : List OwnerReference,
      (handlePod opNs (withOwners pod ors)).spec = (handlePod opNs pod).spec) := by
  refine ⟨?_, ?_, ?_⟩
  · intro h
    unfold shouldIgnorePod
    rw [h]
    simp
  · intro ors hno
    have h1 : isDaemonSetControlled (withOwners pod ors) = false := by
      cases hb : isDaemonSetControlled (withOwners pod ors) with
      | false => rfl
      | true =>
        obtain ⟨o, ho, hk, hc⟩ := (isDaemonSetControlled_iff _).mp hb
        exact absurd ⟨hk, hc⟩ (hno o ho)
    unfold shouldIgnorePod
    rw [show isDaemonSetControlled (withOwners pod []) = false from rfl, h1]
    rfl
  · intro ors
    unfold handlePod
    simp only [ignoredByHandler_ensureLabel, ignoredByHandler_withOwners]
    by_cases hig : ignoredByHandler opNs pod
    · simp only [hig, if_true]
      rfl
    · simp only [hig, Bool.false_eq_true, if_false, hasGate_normalizeGates,
        hasGate_ensureLabel, hasGate_withOwners]
      by_cases hg : HasSchedulingGate pod
      · simp only [hg, if_true]
        rfl
      · have hg2 := Bool.of_not_eq_true hg
        simp only [hg2, Bool.false_eq_true, if_false]
        rfl

/-- C2 amended witness: the concrete DaemonSet-controlled pod is ignored by
`shouldIgnorePod`; a controller=false DaemonSet owner leaves `shouldIgnorePod`
as without owners; and the handler's resulting spec on the DaemonSet pod is
the one it produces for the owner-less pod (it is gated normally). -/
theorem c2_amended_witness :
    shouldIgnorePod "openshift-multiarch-tuning-operator" c2Pod = true ∧
    shouldIgnorePod "openshift-multiarch-tuning-operator"
        (withOwners blankPod [{ kind := "DaemonSet", controller := some false }]) =
      shouldIgnorePod "openshift-multiarch-tuning-operator" (withOwners blankPod []) ∧
    (handlePod "openshift-multiarch-tuning-operator"
        (withOwners blankPod [{ kind := "DaemonSet", controller := some true }])).spec =
      (handlePod "openshift-multiarch-tuning-operator" blankPod).spec :=
  ⟨(c2_daemonset_ignored_in_reconcile_not_handler "openshift-multiarch-tuning-operator"
      c2Pod).1 (by decide),
   (c2_daemonset_ignored_in_reconcile_not_handler "openshift-multiarch-tuning-operator"
      blankPod).2.1 [{ kind := "DaemonSet", controller := some false }] (by decide),
   (c2_daemonset_ignored_in_reconcile_not_handler "openshift-multiarch-tuning-operator"
      blankPod).2.2 [{ kind := "DaemonSet", controller := some true }]⟩

theorem mem_foldl_listInter (rest : List (List String)) (s : List String) (a : String) :
    a ∈ rest.foldl listInter s ↔ a ∈ s ∧ ∀ t ∈ rest, a ∈ t := by
  induction rest generalizing s with
  | nil => simp
  | cons t rest ih =>
    rw [List.foldl_cons, ih]
    unfold listInter
    rw [List.mem_filter, List.forall_mem_cons]
    constructor
    · rintro ⟨⟨h1, h2⟩, h3⟩
      exact ⟨h1, by simpa using h2, h3⟩
    · rintro ⟨h1, h2, h3⟩
      exact ⟨⟨h1, by simpa using h2⟩, h3⟩

theorem mem_interAll (ss : List (List String)) (hne : ss ≠ []) (a : String) :
    a ∈ interAll ss ↔ ∀ s ∈ ss, a ∈ s := by
  cases ss with
  | nil => exact absurd rfl hne
  | cons s rest =>
    unfold interAll
    rw [mem_foldl_listInter, List.forall_mem_cons]

theorem sorted_sortedSetList (l : List String) : (sortedSetList l).Sorted strLeR :=
  List.sorted_insertionSort _ _

theorem nodup_sortedSetList (l : List String) : (sortedSetList l).Nodup :=
  (List.perm_insertionSort _ l.dedup).nodup_iff.mpr l.nodup_dedup

theorem mem_sortedSetList (l : List String) (a : String) : a ∈ sortedSetList l ↔ a ∈ l := by
  unfold sortedSetList
  rw [(List.perm_insertionSort _ l.dedup).mem_iff, List.mem_dedup]

theorem resolveAll_error_of_mem (resolve : containerImage → Except String (List String))
    (l : List containerImage) (img : containerImage) (e : String)
    (h1 : img ∈ l) (h2 : resolve img = .error e) :
    ∃ e2, resolveAll resolve l = .error e2 ∧ ∃ i2 ∈ l, resolve i2 = .error e2 := by
  induction l with
  | nil => simp at h1
  | cons i is ih =>
    cases hr : resolve i with
    | error e3 =>
      refine ⟨e3, ?_, ⟨i, by simp, hr⟩⟩
      unfold resolveAll
      rw [hr]
    | ok s =>
      have h1b : img ∈ is := by
        rcases List.mem_cons.mp h1 with h | h
        · rw [h] at h2
          rw [hr] at h2
          exact absurd h2 (by simp)
        · exact h
      obtain ⟨e2, he2, i2, hi2, hri2⟩ := ih h1b
      refine ⟨e2, ?_, ⟨i2, List.mem_cons_of_mem _ hi2, hri2⟩⟩
      unfold resolveAll
      rw [hr, he2]

/-- C4: when every image of the pod resolves, the intersection result is the
alphabetically sorted, duplicate-free list of the architectures common to all
resolved sets (sorted whatever order the resolver returned), and the predicate
is `{ArchLabel, In, sorted intersection}` when the intersection is non-empty
and `{NoSupportedArchLabel, Exists}` with no values when it is empty. -/
theorem c4_predicate_sorted (resolve : containerImage → Except String (List String))
    (pod : Pod) (ss : List (List String))
    (h : resolveAll resolve (imagesNamesSet pod) = .ok ss) :
    ∃ archs, intersectImagesArchitecture resolve pod = .ok archs ∧
      archs.Sorted strLeR ∧ archs.Nodup ∧
      (ss ≠ [] → ∀ a, a ∈ archs ↔ ∀ s ∈ ss, a ∈ s) ∧
      (archs ≠ [] → getArchitecturePredicate resolve pod =
        .ok { key := ArchLabel, operator := .opIn, values := some archs }) ∧
      (archs = [] → getArchitecturePredicate resolve pod =
        .ok { key := NoSupportedArchLabel, operator := .opExists, values := none }) := by
  refine ⟨sortedSetList (interAll ss), ?_, sorted_sortedSetList _, nodup_sortedSetList _,
    ?_, ?_, ?_⟩
  · unfold intersectImagesArchitecture
    rw [h]
  · intro hne a
    rw [mem_sortedSetList, mem_interAll ss hne]
  · intro hne
    have hi : intersectImagesArchitecture resolve pod = .ok (sortedSetList (interAll ss)) := by
      unfold intersectImagesArchitecture
      rw [h]
    cases harchs : sortedSetList (interAll ss) with
    | nil => exact absurd harchs hne
    | cons a as =>
      unfold getArchitecturePredicate
      rw [hi, harchs]
  · intro hempty
    have hi : intersectImagesArchitecture resolve pod = .ok (sortedSetList (interAll ss)) := by
      unfold intersectImagesArchitecture
      rw [h]
    unfold getArchitecturePredicate
    rw [hi, hempty]

/-- C4 witness: on the two-multi-arch-image pod, with the resolver returning
unsorted sets, the intersection comes out sorted as [amd64, arm64] and the
predicate is the In-expression; on the conflicting pod the predicate is the
Exists marker. -/
theorem c4_witness :
    (∃ archs, intersectImagesArchitecture fakeResolve multiPod = .ok archs ∧
      archs.Sorted strLeR ∧ archs.Nodup ∧
      ((([["arm64", "amd64"], ["s390x", "arm64", "amd64", "ppc64le"]] : List (List String))
          ≠ []) → ∀ a, a ∈ archs ↔
        ∀ s ∈ ([["arm64", "amd64"], ["s390x", "arm64", "amd64", "ppc64le"]] :
          List (List String)), a ∈ s) ∧
      (archs ≠ [] → getArchitecturePredicate fakeResolve multiPod =
        .ok { key := ArchLabel, operator := .opIn, values := some archs }) ∧
      (archs = [] → getArchitecturePredicate fakeResolve multiPod =
        .ok { key := NoSupportedArchLabel, operator := .opExists, values := none })) ∧
    intersectImagesArchitecture fakeResolve multiPod =
      .ok [ArchitectureAmd64, ArchitectureArm64] ∧
    getArchitecturePredicate fakeResolve conflictPod =
      .ok { key := NoSupportedArchLabel, operator := .opExists, values := none } :=
  ⟨c4_predicate_sorted fakeResolve multiPod
      [["arm64", "amd64"], ["s390x", "arm64", "amd64", "ppc64le"]] rfl,
    rfl, rfl⟩

/-- C5: a pod containing an unresolvable image makes the intersection, the
predicate computation and the whole affinity-setting operation fail with a
resolution error of one of the pod's images, and the affinity-setting
operation returns the pod completely unchanged (atomicity on error). -/
theorem c5_resolution_error_atomic (resolve : containerImage → Except String (List String))
    (pod : Pod) (img : containerImage) (e : String)
    (h1 : img ∈ imagesNamesSet pod) (h2 : resolve img = .error e) :
    ∃ e2, (∃ i2 ∈ imagesNamesSet pod, resolve i2 = .error e2) ∧
      intersectImagesArchitecture resolve pod = .error e2 ∧
      getArchitecturePredicate resolve pod = .error e2 ∧
      SetNodeAffinityArchRequirement resolve pod = (pod, some e2) := by
  obtain ⟨e2, he2, hex⟩ := resolveAll_error_of_mem resolve _ img e h1 h2
  refine ⟨e2, hex, ?_, ?_, ?_⟩
  · unfold intersectImagesArchitecture
    rw [he2]
  · unfold getArchitecturePredicate intersectImagesArchitecture
    rw [he2]
  · unfold SetNodeAffinityArchRequirement getArchitecturePredicate intersectImagesArchitecture
    rw [he2]

/-- C5 witness: the pod with a broken image fails end to end with the broken
image's resolution error and is returned untouched. -/
theorem c5_witness :
    ∃ e2, (∃ i2 ∈ imagesNamesSet badImagePod, fakeResolve i2 = .error e2) ∧
      intersectImagesArchitecture fakeResolve badImagePod = .error e2 ∧
      getArchitecturePredicate fakeResolve badImagePod = .error e2 ∧
      SetNodeAffinityArchRequirement fakeResolve badImagePod = (badImagePod, some e2) :=
  c5_resolution_error_atomic fakeResolve badImagePod
    { imageName := "//registry.io/broken", skipCache := false } "err-resolving"
    (by decide) rfl

/-- C6: for every successfully decoded pod, the handler core sets the
"not yet determined" node-affinity bookkeeping label unconditionally — also on
pods matching the ignoring rule, whose other mutations (gates, gated label,
affinity) are all skipped: the spec of an ignored pod is returned untouched and
its gated label is unchanged; the handler never touches affinity at all. -/
theorem c6_affinity_label_unconditional (opNs : String) (pod : Pod) :
    getLabel (handlePod opNs pod) NodeAffinityLabel = some NodeAffinityLabelValueNotSet ∧
    (handlePod opNs pod).spec.affinity = pod.spec.affinity ∧
    (ignoredByHandler opNs pod = true →
      (handlePod opNs pod).spec = pod.spec ∧
      getLabel (handlePod opNs pod) SchedulingGateLabel = getLabel pod SchedulingGateLabel) := by
  have hne : SchedulingGateLabel ≠ NodeAffinityLabel := by decide
  have hne2 : NodeAffinityLabel ≠ SchedulingGateLabel := by decide
  unfold handlePod
  simp only [ignoredByHandler_ensureLabel]
  by_cases hig : ignoredByHandler opNs pod
  · simp only [hig, if_true]
    refine ⟨getLabel_ensureLabel_self pod _ _, rfl, fun _ => ⟨rfl, ?_⟩⟩
    exact getLabel_ensureLabel_ne pod _ _ _ hne
  · simp only [hig, Bool.false_eq_true, if_false, hasGate_normalizeGates, hasGate_ensureLabel]
    by_cases hg : HasSchedulingGate pod
    · simp only [hg, if_true]
      exact ⟨getLabel_ensureLabel_self pod _ _, rfl, fun higt => False.elim higt⟩
    · have hg2 := Bool.of_not_eq_true hg
      simp only [hg2, Bool.false_eq_true, if_false]
      refine ⟨?_, rfl, fun higt => False.elim higt⟩
      rw [getLabel_ensureLabel_ne _ _ _ _ hne2]
      exact getLabel_ensureLabel_self pod _ _

/-- C6 witness: a pod in a `kube-` namespace is matched by the ignoring rule,
still receives the bookkeeping label, and its spec (gates, affinity) is
untouched. -/
theorem c6_witness :
    ignoredByHandler "mto-ns" kubePod = true ∧
    getLabel (handlePod "mto-ns" kubePod) NodeAffinityLabel =
      some NodeAffinityLabelValueNotSet ∧
    (handlePod "mto-ns" kubePod).spec = kubePod.spec :=
  ⟨by decide, (c6_affinity_label_unconditional "mto-ns" kubePod).1,
    ((c6_affinity_label_unconditional "mto-ns" kubePod).2.2 (by decide)).1⟩

/-- C7 witness: the dedup pod's extraction has the three expected distinct
entries: one per (name, skipCache) pair, the always-pull duplicate kept
distinct. -/
theorem c7_witness :
    (imagesNamesSet dedupPod).Nodup ∧
    ({ imageName := normalizedImageName "registry.io/multi", skipCache := true } ∈
      imagesNamesSet dedupPod ↔
      ∃ c ∈ dedupPod.spec.containers ++ dedupPod.spec.initContainers,
        ({ imageName := normalizedImageName "registry.io/multi", skipCache := true }
          : containerImage) = containerImageOf c) := by
  exact ⟨(c7_images_dedup dedupPod).1, (c7_images_dedup dedupPod).2.1 _⟩

end MTO
